import Mathlib

set_option autoImplicit false

/-!
Shallow embedding of `src/python/azure_functions_sqs/output.py`
(SQS output binding: `SqsOutputOptions`, `SqsOutput`, `SqsCollector`),
together with theorems settling the specification claims about it.
Python values that can appear as binding payloads are modelled by `PyValue`;
the transport client (`SqsClient`, an external collaborator) is modelled as a
function parameter giving the outcome of each remote call; exceptions are
modelled with `Except`.
-/

/-- Model of the Python values the binding serializes: strings, dicts, lists,
`None`, ints and bools (the "other" branch of the serializer). -/
inductive PyValue where
  | vstr : String → PyValue
  | vdict : List (String × PyValue) → PyValue
  | vlist : List PyValue → PyValue
  | vnone : PyValue
  | vint : Int → PyValue
  | vbool : Bool → PyValue

/-- JSON escaping of a single character, as `json.dumps` does for the
characters that occur in this development. -/
def escapeJsonChar (c : Char) : String :=
  if c = '"' then "\\\""
  else if c = '\\' then "\\\\"
  else if c = '\n' then "\\n"
  else if c = '\t' then "\\t"
  else if c = '\r' then "\\r"
  else String.singleton c

/-- A JSON string literal: quoted, characters escaped. -/
def jsonString (s : String) : String :=
  "\"" ++ String.join (s.toList.map escapeJsonChar) ++ "\""

mutual
/-- Model of Python `json.dumps` with default options (separators
`", "` and `": "`). -/
def jsonDumps : PyValue → String
  | .vstr s => jsonString s
  | .vint n => toString n
  | .vbool b => if b then "true" else "false"
  | .vnone => "null"
  | .vlist xs => "[" ++ String.intercalate ", " (jsonDumpsList xs) ++ "]"
  | .vdict kvs => "\x7b" ++ String.intercalate ", " (jsonDumpsKVs kvs) ++ "\x7d"

def jsonDumpsList : List PyValue → List String
  | [] => []
  | v :: vs => jsonDumps v :: jsonDumpsList vs

def jsonDumpsKVs : List (String × PyValue) → List String
  | [] => []
  | (k, v) :: kvs => (jsonString k ++ ": " ++ jsonDumps v) :: jsonDumpsKVs kvs
end

/-- The serialization both `SqsOutput._send_message` and `SqsCollector.add`
perform: a `str` passes through unchanged, a `dict` or `list` goes through
`json.dumps`, anything else through `str(value)` (`str(None) = "None"`,
`str(True) = "True"`, decimal for ints). -/
def serializeValue : PyValue → String
  | .vstr s => s
  | .vdict kvs => jsonDumps (.vdict kvs)
  | .vlist xs => jsonDumps (.vlist xs)
  | .vnone => "None"
  | .vint n => toString n
  | .vbool b => if b then "True" else "False"

/-- The exception raised by the transport client facade when a remote call
cannot be completed. -/
inductive TransportError where
  | mk : TransportError
deriving DecidableEq

/-- `SqsOutputOptions` dataclass from `output.py`: three fields with the
dataclass defaults, and no validation logic of any kind (it is a plain
`@dataclass`). -/
structure SqsOutputOptions where
  delay_seconds : Int := 0
  message_group_id : Option String := none
  use_content_based_deduplication : Bool := false
deriving DecidableEq

/-- State of an `SqsOutput` binding object after `__init__`:
the stored constructor arguments plus the lazily-created client
(`self._client`), tracked here as a Boolean `clientConstructed`. -/
structure SqsOutput where
  queue_url : String
  region : Option String
  aws_key_id : Option String
  aws_access_key : Option String
  options : SqsOutputOptions
  clientConstructed : Bool

/-- `SqsOutput.__init__`: stores its arguments unchanged,
`self.options = options or SqsOutputOptions()` (a dataclass instance is
always truthy, so `None` and only `None` is replaced by the default),
`self._client = None`. The constructor body contains no validation and no
raise statement, so it is a total function. -/
def SqsOutput.init (queue_url : String) (region aws_key_id aws_access_key : Option String)
    (options : Option SqsOutputOptions) : SqsOutput :=
  { queue_url := queue_url
    region := region
    aws_key_id := aws_key_id
    aws_access_key := aws_access_key
    options := options.getD {}
    clientConstructed := false }

/-- One call to `SqsClient.send_message` as issued by
`SqsOutput._send_message`: the keyword arguments passed at
`output.py:119-123` (`body`, `delay_seconds`, `message_group_id`) — the
call site passes nothing else. -/
structure SendCall where
  body : String
  delay_seconds : Int
  message_group_id : Option String
deriving DecidableEq

/-- `SqsOutput._send_message`: a `None` value is skipped (no client call);
otherwise the value is serialized and one `send_message` call is made with
the body and the binding options' `delay_seconds` and `message_group_id`.
Returns the list of transport calls issued. -/
def sendMessageCalls (opts : SqsOutputOptions) (value : PyValue) : List SendCall :=
  match value with
  | .vnone => []
  | v => [{ body := serializeValue v
            delay_seconds := opts.delay_seconds
            message_group_id := opts.message_group_id }]

/-- `SqsOutput.__call__`'s `wrapper`: runs the wrapped callable, and when it
returns a result `r`, calls `self._send_message(r)` and then returns `r`.
`fres` is the outcome of the wrapped callable (a raised exception
propagates unchanged, no send happens); `send` is the outcome of
`_send_message` on the result. The second component records the values
passed to `_send_message`, in order. -/
def wrapperRun {T : Type} (fres : Except TransportError T)
    (send : T → Except TransportError Unit) : Except TransportError T × List T :=
  match fres with
  | .error e => (.error e, [])
  | .ok r =>
    match send r with
    | .error e => (.error e, [r])
    | .ok _ => (.ok r, [r])

/-- One entry of a batch as built at `output.py:199-201`:
`{"Id": str(idx), "MessageBody": msg}` — these two keys and nothing else. -/
structure BatchEntry where
  id : String
  messageBody : String
deriving DecidableEq

/-- The response dict of `SqsClient.send_message_batch` as `flush` reads it:
`response.get("Successful", [])` (modelled by the ids of the successful
entries; `flush` only takes its length) and `response.get("Failed")`, a list
of `(Id, Message)` pairs (`flush` only logs them). A missing key is the
empty list. -/
structure BatchResponse where
  successful : List String
  failed : List (String × String)
deriving DecidableEq

/-- The chunking performed by `flush`'s loop
`for i in range(0, len(self._messages), 10): batch = self._messages[i:i+10]`:
consecutive slices of at most 10 messages. -/
def chunk10 (l : List String) : List (List String) :=
  if l = [] then [] else l.take 10 :: chunk10 (l.drop 10)
termination_by l.length
decreasing_by
  simp only [List.length_drop]
  have : l.length ≠ 0 := by simpa [List.length_eq_zero] using (by assumption : ¬ l = [])
  omega

theorem chunk10_eq (l : List String) :
    chunk10 l = if l = [] then [] else l.take 10 :: chunk10 (l.drop 10) := by
  rw [chunk10]

/-- The entries built for one batch at `output.py:199-201`: chunk-local ids
`str(idx)` from `enumerate(batch)` paired with the message bodies. -/
def mkEntries (batch : List String) : List BatchEntry :=
  batch.enum.map (fun p => { id := toString p.1, messageBody := p.2 })

/-- State of an `SqsCollector` object: the stored constructor arguments,
`self._messages` and whether `self._client` has been created. -/
structure SqsCollector where
  queue_url : String
  region : Option String
  aws_key_id : Option String
  aws_access_key : Option String
  messages : List String
  clientConstructed : Bool

/-- `SqsCollector.__init__` (`output.py:143-156`): stores the four
connection arguments; `self._messages = []`, `self._client = None`.
The signature takes no options argument of any kind. -/
def SqsCollector.init (queue_url : String)
    (region aws_key_id aws_access_key : Option String) : SqsCollector :=
  { queue_url := queue_url
    region := region
    aws_key_id := aws_key_id
    aws_access_key := aws_access_key
    messages := []
    clientConstructed := false }

/-- `SqsCollector.add`: serializes the value (same branches as
`_send_message`) and appends it to `self._messages`. -/
def SqsCollector.add (c : SqsCollector) (message : PyValue) : SqsCollector :=
  { c with messages := c.messages ++ [serializeValue message] }

/-- A sequence of `add` calls, in order. -/
def SqsCollector.addAll (c : SqsCollector) (vs : List PyValue) : SqsCollector :=
  vs.foldl SqsCollector.add c

/-- The chunk loop of `flush` (`output.py:197-212`): for each chunk, build
the entries and call `client.send_message_batch(entries)`; on a normal
response add `len(response.get("Successful", []))` to `sent_count` (failed
entries are only logged); if the call raises, the exception propagates at
once and the loop stops. `send` gives the outcome of the transport call for
the `i`-th batch submission; `acc` is `sent_count` so far; `calls` records
the batch submissions already made, in order. -/
def flushChunks (send : ℕ → List BatchEntry → Except TransportError BatchResponse) :
    List (List String) → ℕ → ℕ → List (List BatchEntry) →
    Except TransportError ℕ × List (List BatchEntry)
  | [], _, acc, calls => (.ok acc, calls)
  | chunk :: rest, i, acc, calls =>
    match send i (mkEntries chunk) with
    | .error e => (.error e, calls ++ [mkEntries chunk])
    | .ok resp =>
      flushChunks send rest (i + 1) (acc + resp.successful.length) (calls ++ [mkEntries chunk])

/-- `SqsCollector.flush` (`output.py:183-216`): an empty `self._messages`
returns 0 immediately (before `self._get_client()`, so no client is
created and no transport call happens); otherwise the client is created
(or reused), the chunk loop runs, and — only when the loop completes
without an exception — `self._messages.clear()` runs and `sent_count` is
returned. When a batch call raises, the exception propagates and the
clear is never reached. Result: (returned count or raised exception,
collector state afterwards, batch submissions made in order). -/
def SqsCollector.flush (c : SqsCollector)
    (send : ℕ → List BatchEntry → Except TransportError BatchResponse) :
    Except TransportError ℕ × SqsCollector × List (List BatchEntry) :=
  if c.messages = [] then (.ok 0, c, [])
  else
    let c1 := { c with clientConstructed := true }
    match flushChunks send (chunk10 c.messages) 0 0 [] with
    | (.ok n, calls) => (.ok n, { c1 with messages := [] }, calls)
    | (.error e, calls) => (.error e, c1, calls)

theorem chunk10_flatten (l : List String) : (chunk10 l).flatten = l := by
  rw [chunk10_eq]
  by_cases h : l = []
  · simp [h]
  · simp only [if_neg h, List.flatten_cons]
    rw [chunk10_flatten (l.drop 10)]
    exact List.take_append_drop 10 l
termination_by l.length
decreasing_by
  simp only [List.length_drop]
  have : l.length ≠ 0 := by simpa [List.length_eq_zero] using h
  omega

theorem chunk10_length (l : List String) : (chunk10 l).length = (l.length + 9) / 10 := by
  rw [chunk10_eq]
  by_cases h : l = []
  · simp [h]
  · simp only [if_neg h, List.length_cons]
    rw [chunk10_length (l.drop 10)]
    simp only [List.length_drop]
    have : l.length ≠ 0 := by simpa [List.length_eq_zero] using h
    omega
termination_by l.length
decreasing_by
  simp only [List.length_drop]
  have : l.length ≠ 0 := by simpa [List.length_eq_zero] using h
  omega

theorem chunk10_mem_length_le (l c : List String) (hc : c ∈ chunk10 l) :
    c.length ≤ 10 := by
  rw [chunk10_eq] at hc
  by_cases h : l = []
  · simp [h] at hc
  · simp only [if_neg h, List.mem_cons] at hc
    rcases hc with hc | hc
    · subst hc; exact List.length_take_le 10 l
    · exact chunk10_mem_length_le (l.drop 10) c hc
termination_by l.length
decreasing_by
  simp only [List.length_drop]
  have : l.length ≠ 0 := by simpa [List.length_eq_zero] using h
  omega

theorem mkEntries_length (b : List String) : (mkEntries b).length = b.length := by
  simp [mkEntries, List.enum_length]

theorem mkEntries_map_messageBody (b : List String) :
    (mkEntries b).map (fun e => e.messageBody) = b := by
  have : ((fun e : BatchEntry => e.messageBody) ∘
      fun p : ℕ × String => ({ id := toString p.1, messageBody := p.2 } : BatchEntry))
      = Prod.snd := rfl
  rw [mkEntries, List.map_map, this, List.enum_map_snd]

theorem mem_mkEntries {e : BatchEntry} {b : List String} (he : e ∈ mkEntries b) :
    ∃ i, i < b.length ∧ e.id = toString i ∧ e.messageBody ∈ b := by
  simp only [mkEntries, List.mem_map] at he
  obtain ⟨p, hp, rfl⟩ := he
  rw [List.mem_enum_iff_getElem?] at hp
  obtain ⟨hlt, hget⟩ := List.getElem?_eq_some.mp hp
  exact ⟨p.1, hlt, rfl, hget ▸ List.getElem_mem hlt⟩

/-- Specification-side sum: total of `len(response["Successful"])` over the
chunks, with `i` the index of the first chunk. -/
def sumSuccessful (resp : ℕ → List BatchEntry → BatchResponse) :
    List (List String) → ℕ → ℕ
  | [], _ => 0
  | c :: rest, i =>
    (resp i (mkEntries c)).successful.length + sumSuccessful resp rest (i + 1)

/-- Specification-side sum: total of (chunk size − number reported failed)
over the chunks. -/
def sumSizeMinusFailed (resp : ℕ → List BatchEntry → BatchResponse) :
    List (List String) → ℕ → ℕ
  | [], _ => 0
  | c :: rest, i =>
    (c.length - (resp i (mkEntries c)).failed.length) + sumSizeMinusFailed resp rest (i + 1)

theorem flushChunks_ok (resp : ℕ → List BatchEntry → BatchResponse)
    (cs : List (List String)) : ∀ i acc calls,
    flushChunks (fun j es => .ok (resp j es)) cs i acc calls
      = (.ok (acc + sumSuccessful resp cs i), calls ++ cs.map mkEntries) := by
  induction cs with
  | nil => intro i acc calls; simp [flushChunks, sumSuccessful]
  | cons c rest ih =>
    intro i acc calls
    simp only [flushChunks, sumSuccessful, List.map_cons]
    rw [ih (i + 1) (acc + (resp i (mkEntries c)).successful.length) (calls ++ [mkEntries c])]
    simp [Nat.add_assoc]

theorem flushChunks_calls_mem (send : ℕ → List BatchEntry → Except TransportError BatchResponse)
    (cs : List (List String)) : ∀ i acc calls c,
    c ∈ (flushChunks send cs i acc calls).2 →
    c ∈ calls ∨ ∃ chunk ∈ cs, c = mkEntries chunk := by
  induction cs with
  | nil =>
    intro i acc calls c hc
    simp only [flushChunks] at hc
    exact Or.inl hc
  | cons ch rest ih =>
    intro i acc calls c hc
    simp only [flushChunks] at hc
    cases hsend : send i (mkEntries ch) with
    | error e =>
      rw [hsend] at hc
      simp only [List.mem_append, List.mem_singleton] at hc
      rcases hc with hc | hc
      · exact Or.inl hc
      · exact Or.inr ⟨ch, List.mem_cons_self ch rest, hc⟩
    | ok resp =>
      rw [hsend] at hc
      rcases ih (i + 1) (acc + resp.successful.length) (calls ++ [mkEntries ch]) c hc with
        hc | ⟨chunk, hmem, hceq⟩
      · simp only [List.mem_append, List.mem_singleton] at hc
        rcases hc with hc | hc
        · exact Or.inl hc
        · exact Or.inr ⟨ch, List.mem_cons_self ch rest, hc⟩
      · exact Or.inr ⟨chunk, List.mem_cons_of_mem ch hmem, hceq⟩

theorem addAll_messages (vs : List PyValue) : ∀ c : SqsCollector,
    (c.addAll vs).messages = c.messages ++ vs.map serializeValue := by
  induction vs with
  | nil => intro c; simp [SqsCollector.addAll]
  | cons v rest ih =>
    intro c
    have h1 : c.addAll (v :: rest) = (c.add v).addAll rest := rfl
    rw [h1, ih (c.add v)]
    simp [SqsCollector.add]

theorem sumSuccessful_eq_sumSizeMinusFailed (resp : ℕ → List BatchEntry → BatchResponse)
    (hyp : ∀ i es, (resp i es).successful.length + (resp i es).failed.length = es.length)
    (cs : List (List String)) : ∀ i, sumSuccessful resp cs i = sumSizeMinusFailed resp cs i := by
  induction cs with
  | nil => intro i; rfl
  | cons c rest ih =>
    intro i
    simp only [sumSuccessful, sumSizeMinusFailed, ih (i + 1)]
    have h := hyp i (mkEntries c)
    rw [mkEntries_length] at h
    omega

/-- A transport response that reports every entry of the batch successful. -/
def respAllOk : ℕ → List BatchEntry → BatchResponse :=
  fun _ es => { successful := es.map (fun e => e.id), failed := [] }

/-- `respAllOk` as a transport call outcome (never raises). -/
def respAllOkExcept : ℕ → List BatchEntry → Except TransportError BatchResponse :=
  fun i es => .ok (respAllOk i es)

/-- A concrete collector holding two pending messages, used to instantiate
theorems at a concrete input. -/
def collectorAB : SqsCollector :=
  { queue_url := "q", region := none, aws_key_id := none, aws_access_key := none,
    messages := ["a", "b"], clientConstructed := false }

/-- Claim C6: `flush()` on a Collector whose `_messages` list is empty
returns 0, makes no batch submission, and leaves the state unchanged — in
particular `self._client` is not constructed (the early return at
`output.py:190-191` happens before `self._get_client()`). -/
theorem C6_flush_empty_noop (send : ℕ → List BatchEntry → Except TransportError BatchResponse)
    (c : SqsCollector) (h : c.messages = []) :
    c.flush send = (.ok 0, c, []) := by
  simp [SqsCollector.flush, h]

theorem C6_flush_empty_noop_witness :
    (SqsCollector.init "q" none none none).messages = [] ∧
    (SqsCollector.init "q" none none none).flush respAllOkExcept
      = (.ok 0, SqsCollector.init "q" none none none, []) :=
  ⟨rfl, C6_flush_empty_noop respAllOkExcept (SqsCollector.init "q" none none none) rfl⟩

/-- Claim C4: flushing after adding N values (N > 0) submits the messages
in consecutive batches: `ceil(N/10)` of them, each of at most 10 entries,
and the concatenation of the batches' message bodies, in submission order,
is exactly the serialized added values in insertion order. -/
theorem C4_flush_chunking (q : String) (r k a : Option String) (vs : List PyValue)
    (resp : ℕ → List BatchEntry → BatchResponse) (hvs : vs ≠ []) :
    let col := (SqsCollector.init q r k a).addAll vs
    let out := col.flush (fun i es => .ok (resp i es))
    out.2.2.length = (vs.length + 9) / 10
    ∧ (∀ es ∈ out.2.2, es.length ≤ 10)
    ∧ (out.2.2.map (fun es => es.map (fun e => e.messageBody))).flatten
        = vs.map serializeValue := by
  intro col out
  have hmsg : col.messages = vs.map serializeValue := by
    rw [addAll_messages]
    simp [SqsCollector.init]
  have hne : ¬ col.messages = [] := by
    rw [hmsg]
    simpa using hvs
  have hout : out = (.ok (0 + sumSuccessful resp (chunk10 col.messages) 0),
      { col with clientConstructed := true, messages := [] },
      [] ++ (chunk10 col.messages).map mkEntries) := by
    show col.flush _ = _
    rw [SqsCollector.flush, if_neg hne, flushChunks_ok]
  rw [hout]
  refine ⟨?_, ?_, ?_⟩
  · simp [chunk10_length, hmsg]
  · intro es hes
    simp only [List.nil_append, List.mem_map] at hes
    obtain ⟨chunk, hchunk, rfl⟩ := hes
    rw [mkEntries_length]
    exact chunk10_mem_length_le col.messages chunk hchunk
  · simp only [List.nil_append, List.map_map]
    have : ((fun es : List BatchEntry => es.map (fun e => e.messageBody)) ∘ mkEntries)
        = fun chunk => chunk := by
      funext chunk
      exact mkEntries_map_messageBody chunk
    rw [this]
    simp only [List.map_id']
    rw [chunk10_flatten, hmsg]

theorem C4_flush_chunking_witness :
    ([PyValue.vstr "a"] : List PyValue) ≠ []
    ∧ (let col := (SqsCollector.init "q" none none none).addAll [PyValue.vstr "a"]
       let out := col.flush (fun i es => .ok (respAllOk i es))
       out.2.2.length = (([PyValue.vstr "a"] : List PyValue).length + 9) / 10
       ∧ (∀ es ∈ out.2.2, es.length ≤ 10)
       ∧ (out.2.2.map (fun es => es.map (fun e => e.messageBody))).flatten
           = ([PyValue.vstr "a"] : List PyValue).map serializeValue) :=
  ⟨by simp, C4_flush_chunking "q" none none none [PyValue.vstr "a"] respAllOk (by simp)⟩

/-- Claim C5: the value `flush()` returns is the total, over the submitted
chunks, of `len(response["Successful"])`; and when every chunk's response
accounts for each entry exactly once (so `len(Successful) = m − k` for a
chunk of `m` entries with `k` failures), the return value is the total of
`m − k` over the chunks. -/
theorem C5_flush_return_count (resp : ℕ → List BatchEntry → BatchResponse)
    (c : SqsCollector) :
    ((c.flush (fun i es => .ok (resp i es))).1
        = .ok (sumSuccessful resp (chunk10 c.messages) 0))
    ∧ ((∀ i es, (resp i es).successful.length + (resp i es).failed.length = es.length) →
        (c.flush (fun i es => .ok (resp i es))).1
          = .ok (sumSizeMinusFailed resp (chunk10 c.messages) 0)) := by
  have h1 : (c.flush (fun i es => .ok (resp i es))).1
      = .ok (sumSuccessful resp (chunk10 c.messages) 0) := by
    by_cases h : c.messages = []
    · rw [SqsCollector.flush, if_pos h, h, chunk10_eq]
      simp [sumSuccessful]
    · rw [SqsCollector.flush, if_neg h, flushChunks_ok]
      simp
  refine ⟨h1, fun hyp => ?_⟩
  rw [h1, sumSuccessful_eq_sumSizeMinusFailed resp hyp]

theorem C5_flush_return_count_witness :
    (collectorAB.flush (fun i es => .ok (respAllOk i es))).1
      = .ok (sumSizeMinusFailed respAllOk (chunk10 collectorAB.messages) 0) :=
  (C5_flush_return_count respAllOk collectorAB).2 (by intro i es; simp [respAllOk])

/-- A concrete collector holding one pending message. -/
def collectorA : SqsCollector :=
  { queue_url := "q", region := none, aws_key_id := none, aws_access_key := none,
    messages := ["a"], clientConstructed := false }

/-- A concrete collector holding twelve pending messages (two chunks). -/
def collector12 : SqsCollector :=
  { queue_url := "q", region := none, aws_key_id := none, aws_access_key := none,
    messages := List.replicate 12 "m", clientConstructed := false }

/-- Claim C1 counterexample: when the batch submission for a chunk raises a
TransportError, `flush` propagates the exception before reaching
`self._messages.clear()` (`output.py:214`), so the pending queue is NOT
empty afterwards — refuting "after the call returns or raises ... the
PendingQueue is empty" in the transport-error case. -/
theorem C1_counterexample :
    (collectorA.flush (fun _ _ => .error .mk)).1 = .error .mk
    ∧ (collectorA.flush (fun _ _ => .error .mk)).2.1.messages = ["a"]
    ∧ (collectorA.flush (fun _ _ => .error .mk)).2.1.messages ≠ [] := by
  refine ⟨?_, ?_, ?_⟩ <;> simp [collectorA, SqsCollector.flush, chunk10_eq, flushChunks]

/-- Claim C1, amended: after a `flush` call that returns normally (all
chunks submitted, with or without per-entry failures) the pending queue is
empty; but when a chunk's batch submission raises a TransportError, the
exception propagates and the pending queue is left exactly as it was
(`clear()` is never reached). -/
theorem C1_amended_flush_queue (send : ℕ → List BatchEntry → Except TransportError BatchResponse)
    (c : SqsCollector) :
    (∀ n : ℕ, (c.flush send).1 = .ok n → (c.flush send).2.1.messages = [])
    ∧ (∀ e : TransportError, (c.flush send).1 = .error e
        → (c.flush send).2.1.messages = c.messages) := by
  by_cases h : c.messages = []
  · rw [SqsCollector.flush, if_pos h]
    exact ⟨fun n _ => h, fun e he => (by cases he)⟩
  · rw [SqsCollector.flush, if_neg h]
    rcases hfc : flushChunks send (chunk10 c.messages) 0 0 [] with ⟨r, calls⟩
    rcases r with e | n
    · exact ⟨fun n hn => (by cases hn), fun e' _ => rfl⟩
    · exact ⟨fun n' _ => rfl, fun e' he' => (by cases he')⟩

theorem C1_amended_flush_queue_witness :
    (collectorA.flush (fun _ _ => .error .mk)).2.1.messages = collectorA.messages :=
  (C1_amended_flush_queue (fun _ _ => .error .mk) collectorA).2 .mk
    (by simp [collectorA, SqsCollector.flush, chunk10_eq, flushChunks])

/-- Claim C2 counterexample: twelve pending messages give two chunks, but
when the first chunk's batch call raises, `flush` performs exactly one
batch submission — the second chunk is never attempted, refuting "the
Collector still attempts to submit every subsequent chunk". -/
theorem C2_counterexample :
    (collector12.flush
        (fun i _ => if i = 0 then .error .mk
          else .ok { successful := [], failed := [] })).2.2.length = 1
    ∧ (chunk10 collector12.messages).length = 2 := by
  constructor <;>
    simp [collector12, SqsCollector.flush, chunk10_eq, flushChunks, List.replicate]

/-- Claim C2, amended: a TransportError on a chunk's batch call aborts the
flush loop at once: the error is the loop's result, the failing chunk is
the last submission made, and the remaining chunks (`rest`) are never
submitted — the result does not depend on `rest` at all. -/
theorem C2_amended_error_aborts (send : ℕ → List BatchEntry → Except TransportError BatchResponse)
    (i acc : ℕ) (chunk : List String) (rest : List (List String))
    (calls : List (List BatchEntry)) (e : TransportError)
    (h : send i (mkEntries chunk) = .error e) :
    flushChunks send (chunk :: rest) i acc calls = (.error e, calls ++ [mkEntries chunk]) := by
  simp [flushChunks, h]

theorem C2_amended_error_aborts_witness :
    flushChunks (fun _ _ => .error .mk) [["a"], ["b"]] 0 0 []
      = (.error .mk, [] ++ [mkEntries ["a"]]) :=
  C2_amended_error_aborts (fun _ _ => .error .mk) 0 0 ["a"] [["b"]] [] .mk rfl

/-- Claim C7 counterexample: `flush` submits the single entry with id "0",
the transport response accounts for no entry at all (both lists empty),
and `flush` neither raises nor reports anything: it returns 0 and clears
the queue — an unaccounted entry is a silent drop, not a checked defect.
No accounting check exists in `output.py:203-212`. -/
theorem C7_counterexample :
    (collectorA.flush (fun _ _ => .ok { successful := [], failed := [] })).1 = .ok 0
    ∧ (collectorA.flush (fun _ _ => .ok { successful := [], failed := [] })).2.1.messages = []
    ∧ (collectorA.flush (fun _ _ => .ok { successful := [], failed := [] })).2.2
        = [[{ id := "0", messageBody := "a" }]] := by
  refine ⟨?_, ?_, ?_⟩ <;>
    simp [collectorA, SqsCollector.flush, chunk10_eq, flushChunks, mkEntries, List.enum]
  rfl

/-- Claim C7, amended: the Collector performs no verification of the
transport's accounting. Whatever the per-chunk responses report — even
when entries appear in neither the successful nor the failed list —
`flush` completes normally (returns some count, never flags a defect) and
clears the queue; the count is simply the sum of the reported
`Successful` lengths. -/
theorem C7_amended_no_accounting_check (resp : ℕ → List BatchEntry → BatchResponse)
    (c : SqsCollector) :
    (∃ n : ℕ, (c.flush (fun i es => .ok (resp i es))).1 = .ok n)
    ∧ (c.flush (fun i es => .ok (resp i es))).2.1.messages = [] := by
  by_cases h : c.messages = []
  · rw [SqsCollector.flush, if_pos h]
    exact ⟨⟨0, rfl⟩, h⟩
  · rw [SqsCollector.flush, if_neg h, flushChunks_ok]
    exact ⟨⟨0 + sumSuccessful resp (chunk10 c.messages) 0, rfl⟩, rfl⟩

/-- Claim C3 counterexample: constructing a binding with
`delay_seconds = 901` (outside [0, 900]) succeeds — `SqsOutput.init` is a
total function because `SqsOutput.__init__` and the `SqsOutputOptions`
dataclass contain no validation and no raise — and the out-of-range value
is stored unchanged (not clamped). No ValidationError exists anywhere in
the source. -/
theorem C3_counterexample :
    (SqsOutput.init "q" none none none
        (some { delay_seconds := 901 })).options.delay_seconds = 901
    ∧ ¬ ((0:Int) ≤ 901 ∧ (901:Int) ≤ 900) := by
  exact ⟨rfl, (by decide)⟩

/-- Claim C3, amended: binding construction performs no validation of
DispatchOptions: any options value — in particular any `delay_seconds`,
also outside [0, 900] — is accepted and stored unchanged (never clamped,
no error raised; construction is total), a missing options argument gets
the dataclass defaults, and the stored (possibly out-of-range) delay is
what a later send forwards to the transport. -/
theorem C3_amended_no_validation (q : String) (r k a : Option String)
    (opts : SqsOutputOptions) :
    (SqsOutput.init q r k a (some opts)).options = opts
    ∧ (SqsOutput.init q r k a none).options
        = { delay_seconds := 0, message_group_id := none,
            use_content_based_deduplication := false }
    ∧ sendMessageCalls (SqsOutput.init q r k a (some opts)).options (.vstr "x")
        = [{ body := "x", delay_seconds := opts.delay_seconds,
             message_group_id := opts.message_group_id }] :=
  ⟨rfl, rfl, rfl⟩

/-- Claim C8 counterexample: the wrapped callable returns 42, the send
raises; the caller receives the exception, not 42 — `return result` at
`output.py:83` is never reached because `self._send_message(result)` on
the line before it raised first. This refutes "the caller still receives
r even when the send fails". -/
theorem C8_counterexample :
    (@wrapperRun ℕ (.ok 42) (fun _ => .error .mk)).1 = .error .mk
    ∧ (@wrapperRun ℕ (.ok 42) (fun _ => .error .mk)).1 ≠ .ok 42 := by
  constructor <;> simp [wrapperRun]

/-- Claim C8, amended: the send happens strictly after the wrapped
callable returns (it is attempted exactly on the callable's result, and
not at all when the callable raises); when the send succeeds the caller
receives the result unmodified, but when the send raises, the exception
propagates to the caller in place of the result — the caller does NOT
receive the result. -/
theorem C8_amended_wrapper {T : Type} (fres : Except TransportError T)
    (send : T → Except TransportError Unit) :
    (∀ e : TransportError, fres = .error e → wrapperRun fres send = (.error e, []))
    ∧ (∀ r : T, fres = .ok r →
        (wrapperRun fres send).2 = [r]
        ∧ (send r = .ok () → wrapperRun fres send = (.ok r, [r]))
        ∧ (∀ e : TransportError, send r = .error e → wrapperRun fres send = (.error e, [r]))) := by
  constructor
  · intro e he
    subst he
    rfl
  · intro r hr
    subst hr
    refine ⟨?_, ?_, ?_⟩
    · cases hs : send r <;> simp [wrapperRun, hs]
    · intro hs; simp [wrapperRun, hs]
    · intro e hs; simp [wrapperRun, hs]

theorem C8_amended_wrapper_witness :
    @wrapperRun ℕ (.ok 42) (fun _ => .error .mk) = (.error .mk, [42]) :=
  ((C8_amended_wrapper (.ok 42) (fun _ => .error .mk)).2 42 rfl).2.2 .mk rfl

/-- Claim C9: for a non-`None` value, `_send_message` issues exactly one
transport call whose arguments are the serialized body, the options'
`delay_seconds` and the options' `message_group_id` (the `SendCall` type,
mirroring the call site at `output.py:119-123`, has no other field); the
`use_content_based_deduplication` option has no effect on the call. -/
theorem C9_send_forwards_exactly (d : Int) (g : Option String) (b : Bool)
    (v : PyValue) (h : v ≠ .vnone) :
    sendMessageCalls (SqsOutputOptions.mk d g b) v
      = [{ body := serializeValue v, delay_seconds := d, message_group_id := g }]
    ∧ sendMessageCalls (SqsOutputOptions.mk d g b) v
      = sendMessageCalls (SqsOutputOptions.mk d g false) v := by
  cases v with
  | vnone => exact absurd rfl h
  | vstr s => exact ⟨rfl, rfl⟩
  | vdict kvs => exact ⟨rfl, rfl⟩
  | vlist xs => exact ⟨rfl, rfl⟩
  | vint n => exact ⟨rfl, rfl⟩
  | vbool bb => exact ⟨rfl, rfl⟩

theorem C9_send_forwards_exactly_witness :
    sendMessageCalls (SqsOutputOptions.mk 3 (some "g") true) (.vstr "hello")
      = [{ body := "hello", delay_seconds := 3, message_group_id := some "g" }]
    ∧ sendMessageCalls (SqsOutputOptions.mk 3 (some "g") true) (.vstr "hello")
      = sendMessageCalls (SqsOutputOptions.mk 3 (some "g") false) (.vstr "hello") :=
  C9_send_forwards_exactly 3 (some "g") true (.vstr "hello") (by simp)

/-- Claim C10: every batch submission `flush` makes consists of the entries
of one chunk of the pending messages, and each entry carries exactly a
chunk-local index id (`str(idx)`) and a pending message body — nothing
else, since `BatchEntry`, like the dict built at `output.py:199-201`, has
only those two fields; no delay, group id or deduplication setting exists
anywhere in the Collector (`SqsCollector` and `SqsCollector.init` have no
options field or parameter). -/
theorem C10_entries_carry_only_id_and_body
    (send : ℕ → List BatchEntry → Except TransportError BatchResponse)
    (c : SqsCollector) :
    ∀ es ∈ (c.flush send).2.2, ∃ chunk ∈ chunk10 c.messages,
      es = mkEntries chunk
      ∧ ∀ e ∈ es, ∃ i, i < chunk.length ∧ e.id = toString i
          ∧ e.messageBody ∈ c.messages := by
  by_cases h : c.messages = []
  · rw [SqsCollector.flush, if_pos h]
    intro es hes
    simp at hes
  · rw [SqsCollector.flush, if_neg h]
    rcases hfc : flushChunks send (chunk10 c.messages) 0 0 [] with ⟨r, calls⟩
    have hcalls : ∀ es ∈ calls, ∃ chunk ∈ chunk10 c.messages, es = mkEntries chunk := by
      intro es hes
      rcases flushChunks_calls_mem send (chunk10 c.messages) 0 0 [] es
          (by rw [hfc]; exact hes) with hfalse | hok
      · simp at hfalse
      · exact hok
    have main : ∀ es ∈ calls, ∃ chunk ∈ chunk10 c.messages,
        es = mkEntries chunk
        ∧ ∀ e ∈ es, ∃ i, i < chunk.length ∧ e.id = toString i
            ∧ e.messageBody ∈ c.messages := by
      intro es hes
      obtain ⟨chunk, hchunk, rfl⟩ := hcalls es hes
      refine ⟨chunk, hchunk, rfl, ?_⟩
      intro e he
      obtain ⟨i, hi, hid, hbody⟩ := mem_mkEntries he
      have hmem : e.messageBody ∈ (chunk10 c.messages).flatten :=
        List.mem_flatten.mpr ⟨chunk, hchunk, hbody⟩
      rw [chunk10_flatten] at hmem
      exact ⟨i, hi, hid, hmem⟩
    rcases r with e | n
    · exact main
    · exact main

theorem C10_entries_carry_only_id_and_body_witness :
    ∃ chunk ∈ chunk10 collectorA.messages,
      mkEntries ["a"] = mkEntries chunk
      ∧ ∀ e ∈ mkEntries ["a"], ∃ i, i < chunk.length ∧ e.id = toString i
          ∧ e.messageBody ∈ collectorA.messages :=
  C10_entries_carry_only_id_and_body respAllOkExcept collectorA (mkEntries ["a"])
    (by simp [collectorA, SqsCollector.flush, chunk10_eq, flushChunks, respAllOkExcept])
